import Mathlib

/-!
Verification of the memorick synchronization engine (src/database_sync.py and
src/server/server.py). The Python code is shallowly embedded: dictionaries
become structures with Option-valued fields for optional keys, SQLite rows
become a Row structure, the insertion-ordered Python dict becomes an
association list with in-place update, and numeric fields (Python floats and
ints) become ℚ and ℤ. Nondeterministic inputs (HTTP responses, probe results,
random jitter, wall-clock time) are explicit parameters.
-/

namespace Memorick

/-- A statistics dictionary as handled by `SyncGameDatabase._deduplicate_stats`
and the read paths. Keys that may be absent from the Python dict are
`Option`-valued; `player_name`, `difficulty` and `duration_seconds` are
required because `_deduplicate_stats` indexes them unconditionally.
The Python dict keys "local" and "server" are rendered `localTag` and
`serverTag`. -/
structure Stat where
  id : Option Int := none
  player_name : String
  difficulty : String
  start_time : Option ℚ := none
  end_time : Option ℚ := none
  duration_seconds : ℚ
  moves : Option Int := none
  «matches» : Option Int := none
  errors : Option Int := none
  completed : Option Bool := none
  source : Option String := none
  cached : Option Bool := none
  warning : Option String := none
  localTag : Option Bool := none
  serverTag : Option Bool := none
deriving DecidableEq, Repr

/-- A row of the client `game_stats` SQLite table (schema from
src/database.py plus the `source` and `server_id` columns added in
src/database_sync.py `_ensure_source_column_exists`). The `id` column is
assigned by SQLite AUTOINCREMENT. -/
structure Row where
  id : Int
  player_name : String
  difficulty : String
  start_time : ℚ
  end_time : ℚ
  duration_seconds : ℚ
  moves : Int
  «matches» : Int
  errors : Int
  completed : Bool
  source : String
  server_id : Option Int := none
deriving DecidableEq, Repr

/-- Python `round` to two decimals, scaled by 100: models the `:.2f`
formatting in the dedup key. Exact rational rounding stands in for IEEE
double formatting; the difference is irrelevant to every claim proved here. -/
def round2 (q : ℚ) : ℤ := round (q * 100)

/-- The dedup key computed by `_deduplicate_stats`. In Python the key is a
string, either `id_{id}` or `p_{name}_d_{difficulty}_t_{duration:.2f}_e_{errors}`;
the two shapes can never collide (distinct prefixes), so the key is embedded
as a sum. The underscore-joined signature string is abstracted to the tuple
of its components, which is exactly the identity key of the specification. -/
inductive DedupKey
  | fromId (i : Int)
  | fromSig (player_name difficulty : String) (durCentis : ℤ) (errors : Int)
deriving DecidableEq, Repr

/-- Key selection of `_deduplicate_stats`: the `id` field if present, else the
composite signature, with `errors` defaulting to 0 as in `stat.get` -/
def dedupKey (s : Stat) : DedupKey :=
  match s.id with
  | some i => .fromId i
  | none => .fromSig s.player_name s.difficulty (round2 s.duration_seconds) (s.errors.getD 0)

/-- Lookup in an association list, mirroring Python `key in dict` /
`dict[key]`. -/
def findVal {κ α : Type} [DecidableEq κ] (l : List (κ × α)) (k : κ) : Option α :=
  match l with
  | [] => none
  | (k', v) :: rest => if k' = k then some v else findVal rest k

/-- Python dict assignment `d[k] = v` on an insertion-ordered dict: replace in
place if the key is present, append otherwise. -/
def dictInsert {κ α : Type} [DecidableEq κ] (l : List (κ × α)) (k : κ) (v : α) :
    List (κ × α) :=
  match l with
  | [] => [(k, v)]
  | (k', v') :: rest => if k' = k then (k, v) :: rest else (k', v') :: dictInsert rest k v

/-- One iteration of the loop in `_deduplicate_stats`: on key collision the
incoming record replaces the stored one only when the incoming record has
source server and the stored one has source local. -/
def dedupStep (acc : List (DedupKey × Stat)) (stat : Stat) : List (DedupKey × Stat) :=
  match findVal acc (dedupKey stat) with
  | some existing =>
    if stat.source = some "server" ∧ existing.source = some "local" then
      dictInsert acc (dedupKey stat) stat
    else acc
  | none => dictInsert acc (dedupKey stat) stat

/-- `SyncGameDatabase._deduplicate_stats`: fold the records into an
insertion-ordered dict keyed by `dedupKey`, then return the values. -/
def deduplicate_stats (l : List Stat) : List Stat :=
  (l.foldl dedupStep []).map Prod.snd

/-- The row inserted by `SyncGameDatabase.save_game_stats` into the local
store: derived fields `duration_seconds` and `errors` are recomputed and the
row is tagged with source local. The `id` is the AUTOINCREMENT rowid the
store assigns, passed in explicitly here. -/
def savedRow (id : Int) (player_name difficulty : String) (start_time end_time : ℚ)
    (moves mtch : Int) (completed : Bool) : Row :=
  { id := id, player_name := player_name, difficulty := difficulty,
    start_time := start_time, end_time := end_time,
    duration_seconds := end_time - start_time,
    moves := moves, «matches» := mtch,
    errors := max 0 (moves - mtch),
    completed := completed, source := "local", server_id := none }

/-- Outcome of one HTTP attempt of the remote push in `save_game_stats`:
either a response with a status code, or a `requests.exceptions.RequestException`
(network or timeout failure). -/
inductive RemoteAttempt
  | status (code : Nat)
  | netError
deriving DecidableEq, Repr

/-- Result of the bounded retry loop in `save_game_stats`: success after some
attempt (HTTP 200, or 409 treated as success), an immediate abort after a
non-retriable status (the `break`), or exhaustion of all five attempts. -/
inductive PushOutcome
  | success (attempt : Nat)
  | aborted (attempt : Nat)
  | exhausted
deriving DecidableEq, Repr

/-- `max_retries = 5` in `save_game_stats`. -/
def maxRetries : Nat := 5

/-- The retry loop `for attempt in range(1, max_retries + 1)` of
`save_game_stats`. `stub` gives the outcome of each numbered attempt; `fuel`
counts the attempts still allowed. A 200 response returns the local id
(success); a 409 conflict is treated the same; any other status with
`code < 500 and code != 429` breaks out of the loop; a 5xx or 429 status and
any network error fall through to the next attempt. -/
def savePushGo (stub : Nat → RemoteAttempt) : Nat → Nat → PushOutcome
  | _, 0 => .exhausted
  | attempt, fuel + 1 =>
    match stub attempt with
    | .status code =>
      if code = 200 then .success attempt
      else if code = 409 then .success attempt
      else if code < 500 && code != 429 then .aborted attempt
      else savePushGo stub (attempt + 1) fuel
    | .netError => savePushGo stub (attempt + 1) fuel

/-- The whole remote push of `save_game_stats`: attempts numbered from 1,
at most `maxRetries` of them. -/
def savePush (stub : Nat → RemoteAttempt) : PushOutcome :=
  savePushGo stub 1 maxRetries

/-- Number of HTTP attempts the push consumed. -/
def attemptsOf : PushOutcome → Nat
  | .success a => a
  | .aborted a => a
  | .exhausted => maxRetries

/-- An attempt outcome after which the loop retries: a network or timeout
error, or an HTTP status that is 500 or above or exactly 429. -/
def retriableEvent : RemoteAttempt → Bool
  | .netError => true
  | .status code => 500 ≤ code || code == 429

/-- Remote stub failing with 503 on the first four attempts, then 200. -/
def stub503 (attempt : Nat) : RemoteAttempt :=
  if attempt ≤ 4 then .status 503 else .status 200

/-- Remote stub answering 400 to every attempt. -/
def stub400 (_ : Nat) : RemoteAttempt := .status 400

/-- Result of `save_game_stats`: the updated store, the returned value
(the local rowid), and the remote push outcome when one was attempted. -/
structure SaveResult where
  store : List Row
  ret : Int
  push : Option PushOutcome
deriving DecidableEq, Repr

/-- `SyncGameDatabase.save_game_stats`: insert the row locally (source local),
then, if online, run the bounded remote push; the local id is returned at
every exit of the function. The local insert is modelled as succeeding
(`sqlite3.Error` is environmental); `nextId` is the rowid SQLite assigns. -/
def save_game_stats (store : List Row) (nextId : Int) (player_name difficulty : String)
    (start_time end_time : ℚ) (moves mtch : Int) (completed : Bool)
    (online : Bool) (stub : Nat → RemoteAttempt) : SaveResult :=
  let row := savedRow nextId player_name difficulty start_time end_time moves mtch completed
  { store := store ++ [row],
    ret := nextId,
    push := if online then some (savePush stub) else none }

/-- `base_delay = 1` second in `save_game_stats`. -/
def baseDelay : ℚ := 1

/-- The backoff slept after a failed attempt, from
`delay = base_delay * (2 ** (attempt - 1)) * (0.5 + random.random())`;
`r` is the value of `random.random()`, which lies in `[0, 1)`. -/
def backoffDelay (attempt : Nat) (r : ℚ) : ℚ :=
  baseDelay * 2 ^ (attempt - 1) * (1 / 2 + r)

/-- Per-attempt HTTP timeout `10 + (attempt * 5)` seconds. -/
def requestTimeout (attempt : Nat) : Nat := 10 + attempt * 5

/-- Mutable engine state of `SyncGameDatabase`: the `online` flag (last probe
result) and the `using_cached_data` flag. -/
structure EngineState where
  online : Bool
  usingCachedData : Bool
deriving DecidableEq, Repr

/-- Insertion into a list sorted by `le`; helper for `orderBy`. -/
def insertSorted {α : Type} (le : α → α → Bool) (a : α) : List α → List α
  | [] => [a]
  | b :: l => if le a b then a :: b :: l else b :: insertSorted le a l

/-- Sorting, modelling the SQL `ORDER BY` clauses. Insertion sort is used so
that every evaluation reduces definitionally; only the ordering and the
multiset of elements matter to the claims. -/
def orderBy {α : Type} (le : α → α → Bool) : List α → List α
  | [] => []
  | a :: l => insertSorted le a (orderBy le l)

/-- The ordering `ORDER BY duration_seconds ASC, errors ASC` of the client
leaderboard queries. -/
def lbLE (a b : Row) : Bool :=
  if a.duration_seconds = b.duration_seconds then a.errors ≤ b.errors
  else a.duration_seconds < b.duration_seconds

/-- The WHERE clause shared by the local-only leaderboard queries of
`get_leaderboard` and the three fallback queries of `get_remote_leaderboard`
(the four SQL texts in the source are identical):
`completed = 1 [AND difficulty = ?] AND source = 'local'`. -/
def lbFilter (difficulty : Option String) (r : Row) : Bool :=
  r.completed
    && (match difficulty with | some d => r.difficulty == d | none => true)
    && r.source == "local"

/-- The local-only leaderboard query: filter, order, limit. -/
def localLeaderboardRows (store : List Row) (difficulty : Option String) (limit : Nat) :
    List Row :=
  (orderBy lbLE (store.filter (lbFilter difficulty))).take limit

/-- Projection of a store row to the dictionary produced by the leaderboard
queries, which SELECT `id, player_name, difficulty, start_time, end_time,
duration_seconds, errors, source` (no moves, matches or completed columns). -/
def rowToLBStat (r : Row) : Stat :=
  { id := some r.id, player_name := r.player_name, difficulty := r.difficulty,
    start_time := some r.start_time, end_time := some r.end_time,
    duration_seconds := r.duration_seconds, errors := some r.errors,
    source := some r.source }

/-- The loop `for item in local_data: item["cached"] = True; item["warning"] = ...`
of the fallback branches of `get_remote_leaderboard`. -/
def tagCached (warning : String) (l : List Stat) : List Stat :=
  l.map fun s => { s with cached := some true, warning := some warning }

/-- Remote answer to the leaderboard fetch: 200 with a parsed leaderboard
list, a non-200 status, or a raised exception. -/
inductive LBResp
  | ok (leaderboard : List Stat)
  | httpError (code : Nat)
  | exn
deriving Repr

/-- `SyncGameDatabase.get_remote_leaderboard`. It first resets
`using_cached_data`, re-probes the server (`probe` is the probe result, which
also becomes the new `online` flag), then either returns the server data
directly, or falls back to the tagged local-only query. -/
def get_remote_leaderboard (st : EngineState) (store : List Row) (probe : Bool)
    (difficulty : Option String) (limit : Nat) (resp : LBResp) : EngineState × List Stat :=
  let st1 : EngineState := { st with online := probe, usingCachedData := false }
  let localStats := (localLeaderboardRows store difficulty limit).map rowToLBStat
  if probe = false then
    ({ st1 with usingCachedData := true },
     tagCached "LOCAL DATA ONLY - Not synced with server" localStats)
  else
    match resp with
    | .ok leaderboard => (st1, leaderboard)
    | .httpError code =>
      ({ st1 with usingCachedData := true },
       tagCached ("LOCAL DATA ONLY - Server error " ++ toString code) localStats)
    | .exn =>
      ({ st1 with usingCachedData := true },
       tagCached "LOCAL DATA ONLY - Connection error" localStats)

/-- `SyncGameDatabase.get_leaderboard`. The guard
`if self.online or self.check_server_connection()` short-circuits: when the
`online` flag is already true the probe is skipped; otherwise the probe runs
and updates the flag. When both are false the plain local-only query is
returned, with no cached tag and no change to `using_cached_data`. -/
def get_leaderboard (st : EngineState) (store : List Row) (probe : Bool)
    (difficulty : Option String) (limit : Nat) (resp : LBResp) : EngineState × List Stat :=
  if st.online then get_remote_leaderboard st store probe difficulty limit resp
  else if probe then
    get_remote_leaderboard { st with online := true } store probe difficulty limit resp
  else
    ({ st with online := false },
     (localLeaderboardRows store difficulty limit).map rowToLBStat)

/-- One entry of the server leaderboard JSON consumed by
`_update_local_cache_from_server`; every key may be absent. -/
structure ServerItem where
  id : Option Int := none
  player_name : Option String := none
  difficulty : Option String := none
  duration_seconds : Option ℚ := none
  errors : Option Int := none
  «matches» : Option Int := none
deriving DecidableEq, Repr

/-- The guard `if difficulty and record_difficulty != difficulty: continue`
of `_update_local_cache_from_server`, including Python falsiness of the
empty string. -/
def difficultyBlocks (difficulty : Option String) (record_difficulty : String) : Bool :=
  match difficulty with
  | none => false
  | some d => d ≠ "" && record_difficulty ≠ d

/-- The synthesized row `_update_local_cache_from_server` inserts for one
server entry: `end_time = now`, `start_time = now - duration`,
`matches = item.get('matches', 8)`, `moves = matches + errors`,
`completed = 1`, source server, carrying the server id. The AUTOINCREMENT
rowid is not derivable from the inputs and is irrelevant to every claim, so
it is fixed at 0. -/
def cacheRow (now : ℚ) (server_id : Int) (item : ServerItem) : Row :=
  let duration := item.duration_seconds.getD 0
  let errors := item.errors.getD 0
  let mtch := item.«matches».getD 8
  { id := 0,
    player_name := item.player_name.getD "Unknown",
    difficulty := item.difficulty.getD "Medium",
    start_time := now - duration, end_time := now,
    duration_seconds := duration,
    moves := mtch + errors, «matches» := mtch, errors := errors,
    completed := true, source := "server", server_id := some server_id }

/-- The `server_id_map` construction loop of `_update_local_cache_from_server`:
`for item in server_data: if 'id' in item: server_id_map[item['id']] = item`
over an insertion-ordered dict. -/
def buildIdMap (data : List ServerItem) : List (Int × ServerItem) :=
  data.foldl
    (fun acc item =>
      match item.id with
      | some i => dictInsert acc i item
      | none => acc)
    []

/-- The rows `_update_local_cache_from_server` inserts: iterate the id map,
skip entries missing `player_name`, `difficulty` or `duration_seconds`, skip
entries blocked by the difficulty filter, and synthesize the rest. -/
def cacheRows (now : ℚ) (difficulty : Option String) (data : List ServerItem) : List Row :=
  (buildIdMap data).filterMap fun e =>
    if e.2.player_name.isSome && e.2.difficulty.isSome && e.2.duration_seconds.isSome then
      if difficultyBlocks difficulty (e.2.difficulty.getD "Medium") then none
      else some (cacheRow now e.1 e.2)
    else none

/-- A primitive SQL statement executed inside the cache-replace transaction:
the DELETE of server-sourced rows (optionally restricted to one difficulty)
or one INSERT. -/
inductive StoreOp
  | deleteServer (difficulty : Option String)
  | insertRow (r : Row)
deriving Repr

/-- Effect of one primitive statement on the table. -/
def applyOp (s : List Row) : StoreOp → List Row
  | .deleteServer none => s.filter fun r => !(r.source == "server")
  | .deleteServer (some d) => s.filter fun r => !(r.source == "server" && r.difficulty == d)
  | .insertRow r => s ++ [r]

/-- Sequential execution of primitive statements. -/
def applyOps (s : List Row) (ops : List StoreOp) : List Row := ops.foldl applyOp s

/-- The statement sequence of the cache-replace transaction: one DELETE of
the server-sourced rows, then the bulk INSERT of the synthesized rows. -/
def replaceOps (now : ℚ) (difficulty : Option String) (data : List ServerItem) :
    List StoreOp :=
  .deleteServer difficulty :: (cacheRows now difficulty data).map .insertRow

/-- `SyncGameDatabase._update_local_cache_from_server`. With empty server
data the function returns before opening a transaction. Otherwise the
statements run inside `BEGIN TRANSACTION` under EXCLUSIVE isolation over a
snapshot of the committed store; `failAt = some k` means an exception was
raised after `k` statements, upon which `conn.rollback()` restores the
snapshot taken at BEGIN, so the committed store is returned unchanged;
`failAt = none` means `conn.commit()` publishes the fully replaced store. -/
def update_local_cache_from_server (store : List Row) (now : ℚ) (difficulty : Option String)
    (data : List ServerItem) (failAt : Option Nat) : List Row :=
  if data.isEmpty then store
  else
    match failAt with
    | some _ => store
    | none => applyOps store (replaceOps now difficulty data)

/-- The server-sourced rows of a store, the data at stake in the atomicity
of the cache replace. -/
def serverRows (s : List Row) : List Row := s.filter fun r => r.source == "server"

/-- The rows matched by the player-stats query
`WHERE player_name = ? AND source = 'local'` shared by the 200 branch of
`get_player_remote_stats` and by `_get_local_only_stats`. -/
def localPlayerRows (store : List Row) (player_name : String) : List Row :=
  store.filter fun r => r.player_name == player_name && r.source == "local"

/-- The dictionary built from one local row by `get_player_remote_stats` and
`_get_local_only_stats` (all eleven selected columns plus `local: True`;
`_get_local_only_stats` additionally sets `cached: True`). -/
def rowToPlayerStat (markCached : Bool) (r : Row) : Stat :=
  { id := some r.id, player_name := r.player_name, difficulty := r.difficulty,
    start_time := some r.start_time, end_time := some r.end_time,
    duration_seconds := r.duration_seconds, moves := some r.moves,
    «matches» := some r.«matches», errors := some r.errors,
    completed := some r.completed, source := some r.source,
    cached := if markCached then some true else none,
    localTag := some true }

/-- Return shape of `get_player_remote_stats` and `_get_local_only_stats`. -/
structure PlayerStatsResult where
  player : String
  stats : List Stat
  local_stats : List Stat
  has_local_data : Bool
  using_cached : Bool
  error : Option String
deriving DecidableEq, Repr

/-- Remote answer to the player-stats fetch. -/
inductive PlayerResp
  | ok (server_stats : List Stat)
  | badJson
  | httpError (code : Nat)
  | connError
deriving Repr

/-- `SyncGameDatabase._get_local_only_stats`: sets `using_cached_data`,
returns the deduplicated local rows as the primary list and an empty
`local_stats`. -/
def get_local_only_stats (st : EngineState) (store : List Row)
    (player_name error_message : String) : EngineState × PlayerStatsResult :=
  let stats := deduplicate_stats ((localPlayerRows store player_name).map (rowToPlayerStat true))
  ({ st with usingCachedData := true },
   { player := player_name, stats := stats, local_stats := [],
     has_local_data := true, using_cached := true, error := some error_message })

/-- The tagging loop `stat["server"] = True; stat["source"] = "server"` run
over the fetched server stats in `get_player_remote_stats`. -/
def tagServer (s : Stat) : Stat :=
  { s with serverTag := some true, source := some "server" }

/-- `SyncGameDatabase.get_player_remote_stats`. On a 200 response the tagged
server stats are deduplicated and become `stats`, while the local-only rows
are returned as `local_stats`; every failure branch delegates to
`_get_local_only_stats`. -/
def get_player_remote_stats (st : EngineState) (store : List Row) (player_name : String)
    (resp : PlayerResp) : EngineState × PlayerStatsResult :=
  if st.online = false then
    get_local_only_stats st store player_name "Server unavailable"
  else
    match resp with
    | .connError =>
      get_local_only_stats { st with usingCachedData := true } store
        player_name "Connection error"
    | .badJson => get_local_only_stats st store player_name "Invalid server response"
    | .httpError code =>
      get_local_only_stats st store player_name ("Server error: " ++ toString code)
    | .ok server_stats =>
      let local_stats := (localPlayerRows store player_name).map (rowToPlayerStat false)
      (st,
       { player := player_name,
         stats := deduplicate_stats (server_stats.map tagServer),
         local_stats := local_stats,
         has_local_data := local_stats.length > 0,
         using_cached := false, error := none })

/-- At most one record per identity key: the property the dedup-merge step
establishes. -/
def KeyDistinct (l : List Stat) : Prop := (l.map dedupKey).Nodup

/-- A row of the server `game_stats` table (schema in src/server/server.py
`init_db`). -/
structure SrvRow where
  id : Int
  player_name : String
  difficulty : String
  start_time : ℚ
  end_time : ℚ
  duration_seconds : ℚ
  moves : Int
  «matches» : Int
  errors : Int
  completed : Bool
  sync_time : ℚ
  client_id : String
  local_id : Int
deriving DecidableEq, Repr

/-- Server-side `ORDER BY duration_seconds ASC, errors ASC`. -/
def srvLE (a b : SrvRow) : Bool :=
  if a.duration_seconds = b.duration_seconds then a.errors ≤ b.errors
  else a.duration_seconds < b.duration_seconds

/-- Python `str.lower()` as used on the difficulty path segment, realized as
a character-wise ASCII lowering so that it evaluates inside the kernel; the
difficulty labels compared in the source are plain ASCII. -/
def lowerAscii (s : String) : String :=
  ⟨s.data.map Char.toLower⟩

/-- The server leaderboard endpoint query (src/server/server.py
`get_leaderboard`): for difficulty `all` (case-insensitive) only
`completed = 1` filters; otherwise also `difficulty = ?`. -/
def serverLeaderboardRows (table : List SrvRow) (difficulty : String) (limit : Nat) :
    List SrvRow :=
  let base :=
    if lowerAscii difficulty == "all" then table.filter fun r => r.completed
    else table.filter fun r => r.difficulty == difficulty && r.completed
  (orderBy srvLE base).take limit

/-- The path the client requests for player stats: from
`url = f"{base_url}/api/player/{player_name}?t={cache_buster}"` in
`get_player_remote_stats`, the path portion before the query string. -/
def clientPlayerStatsPath (player_name : String) : String :=
  "/api/player/" ++ player_name

/-- The path the bundled server serves player stats on: the Flask route
`@app.route('/api/stats/player/<name>')` in src/server/server.py. -/
def serverPlayerStatsPath (name : String) : String :=
  "/api/stats/player/" ++ name

/-- Invariant of the dedup fold accumulator: the keys are pairwise distinct
and every entry is stored under the key of its record. -/
def GoodAcc (acc : List (DedupKey × Stat)) : Prop :=
  (acc.map Prod.fst).Nodup ∧ ∀ p ∈ acc, p.1 = dedupKey p.2

/-- A concrete completed local store row, used to instantiate theorems with
hypotheses at a specific input. -/
def sampleRow : Row :=
  { id := 1, player_name := "Ana", difficulty := "Easy",
    start_time := 1000, end_time := 1042, duration_seconds := 42,
    moves := 10, «matches» := 8, errors := 2,
    completed := true, source := "local", server_id := none }

/-- A concrete local-sourced stats dictionary without an id field. -/
def sampleLocalStat : Stat :=
  { player_name := "Ana", difficulty := "Easy", duration_seconds := 42,
    errors := some 2, source := some "local" }

/-- A concrete server-sourced stats dictionary agreeing with
`sampleLocalStat` on every dedup-key field. -/
def sampleServerStat : Stat :=
  { player_name := "Ana", difficulty := "Easy", duration_seconds := 42,
    errors := some 2, source := some "server" }

/-- A concrete well-formed server leaderboard entry. -/
def sampleItem : ServerItem :=
  { id := some 7, player_name := some "Ana", difficulty := some "Easy",
    duration_seconds := some 42, errors := some 2, «matches» := some 8 }

/-- A concrete completed server store row. -/
def sampleSrvRow : SrvRow :=
  { id := 7, player_name := "Ana", difficulty := "Easy",
    start_time := 1000, end_time := 1042, duration_seconds := 42,
    moves := 10, «matches» := 8, errors := 2, completed := true,
    sync_time := 2000, client_id := "c1", local_id := 1 }

/-- A second local store row with the same content as `sampleRow` but its own
rowid: two unsynced plays of the same game with identical outcome. -/
def sampleRow2 : Row :=
  { id := 2, player_name := "Ana", difficulty := "Easy",
    start_time := 1000, end_time := 1042, duration_seconds := 42,
    moves := 10, «matches» := 8, errors := 2,
    completed := true, source := "local", server_id := none }

/-- The identity key in the words of the specification, on a store row: the
`serverID` if present, else the composite
`(playerName, difficulty, round(durationSeconds, 2), errors)`. This is the
spec-side definition, to be compared with the code-side `dedupKey`; the two
differ on unsynced local rows, whose dictionaries carry the local rowid in
`id` although they have no `serverID`. -/
def specIdentityKey (r : Row) : DedupKey :=
  match r.server_id with
  | some i => .fromId i
  | none => .fromSig r.player_name r.difficulty (round2 r.duration_seconds) r.errors

/-- The composite identity of the specification on a returned stats
dictionary: `(playerName, difficulty, round(durationSeconds, 2), errors)`.
By the spec this is the identity of every record without a `serverID`, which
includes every record of `local_stats` (their `id` field is the local rowid,
not a server id). -/
def specCompositeKey (s : Stat) : DedupKey :=
  .fromSig s.player_name s.difficulty (round2 s.duration_seconds) (s.errors.getD 0)

/-- Lookup fails exactly when the key is not among the stored keys. -/
theorem findVal_eq_none_iff {κ α : Type} [DecidableEq κ] (l : List (κ × α)) (k : κ) :
    findVal l k = none ↔ k ∉ l.map Prod.fst := by
  induction l with
  | nil => simp [findVal]
  | cons p rest ih =>
    obtain ⟨k', v⟩ := p
    by_cases h : k' = k
    · subst h
      simp [findVal]
    · simp [findVal, h, ih, Ne.symm h]

/-- Every entry of `dictInsert l k v` is an old entry or the new pair. -/
theorem mem_dictInsert {κ α : Type} [DecidableEq κ] (l : List (κ × α)) (k : κ) (v : α)
    (p : κ × α) (hp : p ∈ dictInsert l k v) : p ∈ l ∨ p = (k, v) := by
  induction l with
  | nil => simpa [dictInsert] using hp
  | cons q rest ih =>
    obtain ⟨k', v'⟩ := q
    rw [dictInsert] at hp
    split at hp
    · rcases List.mem_cons.mp hp with h | h
      · exact Or.inr h
      · exact Or.inl (List.mem_cons_of_mem _ h)
    · rcases List.mem_cons.mp hp with h | h
      · exact Or.inl (h ▸ List.mem_cons_self _ _)
      · rcases ih h with h' | h'
        · exact Or.inl (List.mem_cons_of_mem _ h')
        · exact Or.inr h'

/-- In-place update of a present key leaves the key list unchanged. -/
theorem dictInsert_keys_of_found {κ α : Type} [DecidableEq κ] (l : List (κ × α)) (k : κ)
    (v : α) (h : k ∈ l.map Prod.fst) :
    (dictInsert l k v).map Prod.fst = l.map Prod.fst := by
  induction l with
  | nil => simp at h
  | cons q rest ih =>
    obtain ⟨k', v'⟩ := q
    rw [dictInsert]
    by_cases hk : k' = k
    · simp [hk]
    · have h' : k ∈ rest.map Prod.fst := by
        rcases List.mem_cons.mp h with h'' | h''
        · exact absurd h''.symm hk
        · exact h''
      simp [hk, ih h']

/-- Assignment of an absent key appends the new pair. -/
theorem dictInsert_of_not_found {κ α : Type} [DecidableEq κ] (l : List (κ × α)) (k : κ)
    (v : α) (h : k ∉ l.map Prod.fst) : dictInsert l k v = l ++ [(k, v)] := by
  induction l with
  | nil => rfl
  | cons q rest ih =>
    obtain ⟨k', v'⟩ := q
    rw [dictInsert]
    have hk : ¬ k' = k := fun hEq => h (by simp [hEq])
    have h' : k ∉ rest.map Prod.fst := fun hc => h (by simp [hc])
    simp [hk, ih h']

/-- Lookup distributes over append. -/
theorem findVal_append {κ α : Type} [DecidableEq κ] (l₁ l₂ : List (κ × α)) (k : κ) :
    findVal (l₁ ++ l₂) k = ((findVal l₁ k).rec (findVal l₂ k) fun v => some v) := by
  induction l₁ with
  | nil => simp [findVal]
  | cons p rest ih =>
    obtain ⟨k', v⟩ := p
    by_cases h : k' = k <;> simp [findVal, h, ih]

/-- Equation of `dedupStep` when the key is already present. -/
theorem dedupStep_found (acc : List (DedupKey × Stat)) (s existing : Stat)
    (hfv : findVal acc (dedupKey s) = some existing) :
    dedupStep acc s =
      if s.source = some "server" ∧ existing.source = some "local" then
        dictInsert acc (dedupKey s) s
      else acc := by
  unfold dedupStep
  rw [hfv]

/-- Equation of `dedupStep` when the key is absent. -/
theorem dedupStep_notFound (acc : List (DedupKey × Stat)) (s : Stat)
    (hfv : findVal acc (dedupKey s) = none) :
    dedupStep acc s = dictInsert acc (dedupKey s) s := by
  unfold dedupStep
  rw [hfv]

/-- One dedup step preserves the accumulator invariant. -/
theorem goodAcc_dedupStep (acc : List (DedupKey × Stat)) (s : Stat) (h : GoodAcc acc) :
    GoodAcc (dedupStep acc s) := by
  obtain ⟨hnd, hkeys⟩ := h
  cases hfv : findVal acc (dedupKey s) with
  | none =>
    rw [dedupStep_notFound acc s hfv,
      dictInsert_of_not_found _ _ _ ((findVal_eq_none_iff _ _).mp hfv)]
    constructor
    · rw [List.map_append]
      simp only [List.map_cons, List.map_nil]
      rw [List.nodup_append]
      exact ⟨hnd, List.nodup_singleton _,
        by simpa using (findVal_eq_none_iff _ _).mp hfv⟩
    · intro p hp
      rcases List.mem_append.mp hp with h' | h'
      · exact hkeys p h'
      · have : p = (dedupKey s, s) := by simpa using h'
        rw [this]
  | some existing =>
    rw [dedupStep_found acc s existing hfv]
    have hk : dedupKey s ∈ acc.map Prod.fst := by
      by_contra hc
      rw [(findVal_eq_none_iff _ _).mpr hc] at hfv
      cases hfv
    split
    · constructor
      · rw [dictInsert_keys_of_found _ _ _ hk]
        exact hnd
      · intro p hp
        rcases mem_dictInsert _ _ _ _ hp with h' | h'
        · exact hkeys p h'
        · rw [h']
    · exact ⟨hnd, hkeys⟩

/-- The whole dedup fold preserves the accumulator invariant. -/
theorem goodAcc_foldl (l : List Stat) : ∀ acc, GoodAcc acc → GoodAcc (l.foldl dedupStep acc) := by
  induction l with
  | nil => intro acc h; exact h
  | cons s rest ih => intro acc h; exact ih _ (goodAcc_dedupStep _ _ h)

/-- The output of `_deduplicate_stats` holds at most one record per identity
key. -/
theorem keyDistinct_deduplicate_stats (l : List Stat) : KeyDistinct (deduplicate_stats l) := by
  obtain ⟨hnd, hkeys⟩ := goodAcc_foldl l [] ⟨List.nodup_nil, by simp⟩
  unfold KeyDistinct deduplicate_stats
  have hmap : ((l.foldl dedupStep []).map Prod.snd).map dedupKey
      = (l.foldl dedupStep []).map Prod.fst := by
    rw [List.map_map]
    exact List.map_congr_left fun p hp => (hkeys p hp).symm
  rw [hmap]
  exact hnd

/-- Folding records whose keys are fresh and pairwise distinct just appends
them to the accumulator. -/
theorem foldl_dedupStep_fresh (l : List Stat) :
    ∀ acc : List (DedupKey × Stat),
      (l.map dedupKey).Nodup →
      (∀ s ∈ l, findVal acc (dedupKey s) = none) →
      l.foldl dedupStep acc = acc ++ l.map fun s => (dedupKey s, s) := by
  induction l with
  | nil => intro acc _ _; simp
  | cons s rest ih =>
    intro acc hnd hfresh
    have hs : findVal acc (dedupKey s) = none := hfresh s (List.mem_cons_self _ _)
    have hcons := List.nodup_cons.mp (by simpa using hnd :
      (dedupKey s :: rest.map dedupKey).Nodup)
    have hstep : dedupStep acc s = acc ++ [(dedupKey s, s)] := by
      rw [dedupStep_notFound acc s hs,
        dictInsert_of_not_found _ _ _ ((findVal_eq_none_iff _ _).mp hs)]
    rw [List.foldl_cons, hstep, ih (acc ++ [(dedupKey s, s)]) hcons.2 ?fresh]
    · simp
    case fresh =>
      intro t ht
      have hne : ¬ dedupKey s = dedupKey t :=
        fun hEq => hcons.1 (hEq ▸ List.mem_map_of_mem dedupKey ht)
      rw [findVal_append, hfresh t (List.mem_cons_of_mem _ ht)]
      simp [findVal, hne]

/-- A list with pairwise distinct identity keys is a fixed point of
`_deduplicate_stats`. -/
theorem deduplicate_stats_of_keyDistinct (l : List Stat) (h : KeyDistinct l) :
    deduplicate_stats l = l := by
  unfold deduplicate_stats
  rw [foldl_dedupStep_fresh l [] h fun s _ => rfl]
  simp only [List.nil_append, List.map_map]
  exact List.map_id l

/-- C3: dedup-merge is idempotent — `_deduplicate_stats` applied to its own
output returns it unchanged, for every input list of records. -/
theorem c3_dedup_idempotent (l : List Stat) :
    deduplicate_stats (deduplicate_stats l) = deduplicate_stats l :=
  deduplicate_stats_of_keyDistinct _ (keyDistinct_deduplicate_stats l)

/-- C2: on a two-record input holding one local and one server record that
share an identity key, `_deduplicate_stats` returns only the server record,
in either input order. -/
theorem c2_dedup_prefers_server (a b : Stat) (ha : a.source = some "local")
    (hb : b.source = some "server") (hk : dedupKey a = dedupKey b) :
    deduplicate_stats [a, b] = [b] ∧ deduplicate_stats [b, a] = [b] := by
  have h1 : dedupStep [] a = [(dedupKey a, a)] := rfl
  have h2 : dedupStep [] b = [(dedupKey b, b)] := rfl
  constructor
  · have hfv : findVal [(dedupKey a, a)] (dedupKey b) = some a := by
      simp [findVal, hk]
    have hba : dedupStep [(dedupKey a, a)] b = [(dedupKey b, b)] := by
      rw [dedupStep_found _ _ a hfv, if_pos ⟨hb, ha⟩]
      simp [dictInsert, hk]
    simp [deduplicate_stats, h1, hba]
  · have hfv : findVal [(dedupKey b, b)] (dedupKey a) = some b := by
      simp [findVal, hk]
    have hcond : ¬ (a.source = some "server" ∧ b.source = some "local") := by
      rw [ha]
      rintro ⟨hc, -⟩
      exact absurd hc (by decide)
    have hab : dedupStep [(dedupKey b, b)] a = [(dedupKey b, b)] := by
      rw [dedupStep_found _ _ b hfv, if_neg hcond]
    simp [deduplicate_stats, h2, hab]

/-- C2 witness: the sample local and server records share their identity key
and dedup keeps only the server one. -/
theorem c2_dedup_prefers_server_witness :
    deduplicate_stats [sampleLocalStat, sampleServerStat] = [sampleServerStat] ∧
    deduplicate_stats [sampleServerStat, sampleLocalStat] = [sampleServerStat] :=
  c2_dedup_prefers_server sampleLocalStat sampleServerStat rfl rfl rfl

/-- Executing only INSERT statements appends exactly the inserted rows. -/
theorem applyOps_insertRows (l : List Row) :
    ∀ s : List Row, applyOps s (l.map .insertRow) = s ++ l := by
  induction l with
  | nil => intro s; simp [applyOps]
  | cons r rest ih =>
    intro s
    show applyOps (s ++ [r]) (rest.map .insertRow) = s ++ r :: rest
    rw [ih (s ++ [r])]
    simp

/-- Every value of the `server_id_map` was an element of the server data. -/
theorem mem_buildIdMap (data : List ServerItem) (p : Int × ServerItem)
    (hp : p ∈ buildIdMap data) : p.2 ∈ data := by
  have main : ∀ (d : List ServerItem) (acc : List (Int × ServerItem)),
      p ∈ d.foldl (fun acc item => match item.id with
        | some i => dictInsert acc i item
        | none => acc) acc → p ∈ acc ∨ p.2 ∈ d := by
    intro d
    induction d with
    | nil => intro acc h; exact Or.inl h
    | cons item rest ih =>
      intro acc h
      rw [List.foldl_cons] at h
      rcases ih _ h with h' | h'
      · cases hid : item.id with
        | some i =>
          rw [hid] at h'
          rcases mem_dictInsert _ _ _ _ h' with h'' | h''
          · exact Or.inl h''
          · right
            rw [h'']
            exact List.mem_cons_self _ _
        | none =>
          rw [hid] at h'
          exact Or.inl h'
      · exact Or.inr (List.mem_cons_of_mem _ h')
  rcases main data [] hp with h | h
  · cases h
  · exact h

/-- Every row inserted by the cache replace is synthesized from some element
of the server data. -/
theorem cacheRows_mem (now : ℚ) (difficulty : Option String) (data : List ServerItem)
    (r : Row) (hr : r ∈ cacheRows now difficulty data) :
    ∃ item ∈ data, ∃ i : Int, r = cacheRow now i item := by
  unfold cacheRows at hr
  rcases List.mem_filterMap.mp hr with ⟨e, he, hcond⟩
  split at hcond
  · split at hcond
    · cases hcond
    · exact ⟨e.2, mem_buildIdMap _ _ he, e.1, (Option.some.inj hcond).symm⟩
  · cases hcond

/-- A successful cache replace is the DELETE followed by the bulk INSERT. -/
theorem update_cache_success (store : List Row) (now : ℚ) (difficulty : Option String)
    (data : List ServerItem) (hne : data ≠ []) :
    update_local_cache_from_server store now difficulty data none
      = applyOp store (.deleteServer difficulty) ++ cacheRows now difficulty data := by
  unfold update_local_cache_from_server
  rw [if_neg (by simpa using hne)]
  exact applyOps_insertRows (cacheRows now difficulty data)
    (applyOp store (.deleteServer difficulty))

/-- C1: every row written by `save_game_stats` satisfies
`duration_seconds = end_time - start_time` and
`errors = max 0 (moves - matches)` unconditionally, and, provided the remote
entries carry non-negative `errors`, so does every row written by the cache
replace `_update_local_cache_from_server`. -/
theorem c1_write_invariants (store : List Row) (nextId : Int) (pn df : String)
    (t0 t1 : ℚ) (mv mt : Int) (cp : Bool) (online : Bool) (stub : Nat → RemoteAttempt)
    (now : ℚ) (difficulty : Option String) (data : List ServerItem)
    (hdata : ∀ item ∈ data, (0 : ℤ) ≤ item.errors.getD 0) :
    (save_game_stats store nextId pn df t0 t1 mv mt cp online stub).store
        = store ++ [savedRow nextId pn df t0 t1 mv mt cp] ∧
    ((savedRow nextId pn df t0 t1 mv mt cp).duration_seconds
        = (savedRow nextId pn df t0 t1 mv mt cp).end_time
          - (savedRow nextId pn df t0 t1 mv mt cp).start_time ∧
      (savedRow nextId pn df t0 t1 mv mt cp).errors
        = max 0 ((savedRow nextId pn df t0 t1 mv mt cp).moves
          - (savedRow nextId pn df t0 t1 mv mt cp).«matches»)) ∧
    (data ≠ [] → update_local_cache_from_server store now difficulty data none
        = applyOp store (.deleteServer difficulty) ++ cacheRows now difficulty data) ∧
    (∀ r ∈ cacheRows now difficulty data,
      r.duration_seconds = r.end_time - r.start_time ∧
      r.errors = max 0 (r.moves - r.«matches»)) := by
  refine ⟨rfl, ⟨rfl, rfl⟩, update_cache_success store now difficulty data, ?_⟩
  intro r hr
  rcases cacheRows_mem now difficulty data r hr with ⟨item, hitem, i, hri⟩
  subst hri
  have he : (0 : ℤ) ≤ item.errors.getD 0 := hdata item hitem
  constructor
  · show item.duration_seconds.getD 0 = now - (now - item.duration_seconds.getD 0)
    ring
  · show item.errors.getD 0
      = max 0 ((item.«matches».getD 8 + item.errors.getD 0) - item.«matches».getD 8)
    omega

/-- C1 witness: the invariants instantiated at a concrete saved game and a
concrete one-entry server refresh with non-negative errors. -/
theorem c1_write_invariants_witness :
    (∀ r ∈ cacheRows 100 (some "Easy") [sampleItem],
      r.duration_seconds = r.end_time - r.start_time ∧
      r.errors = max 0 (r.moves - r.«matches»)) ∧
    (savedRow 1 "Ana" "Easy" 1000 (2085 / 2) 10 8 true).errors
      = max 0 ((savedRow 1 "Ana" "Easy" 1000 (2085 / 2) 10 8 true).moves
        - (savedRow 1 "Ana" "Easy" 1000 (2085 / 2) 10 8 true).«matches») :=
  ⟨(c1_write_invariants [] 1 "Ana" "Easy" 1000 (2085 / 2) 10 8 true true stub503
      100 (some "Easy") [sampleItem] (by decide)).2.2.2,
   (c1_write_invariants [] 1 "Ana" "Easy" 1000 (2085 / 2) 10 8 true true stub503
      100 (some "Easy") [sampleItem] (by decide)).2.1.2⟩

/-- The retry loop never uses more attempts than its fuel allows, and its
attempt counter never exceeds `maxRetries` when exhausted. -/
theorem attemptsOf_savePushGo_le (stub : Nat → RemoteAttempt) :
    ∀ (fuel attempt : Nat),
      attemptsOf (savePushGo stub attempt fuel) ≤ max maxRetries (attempt + fuel - 1) := by
  intro fuel
  induction fuel with
  | zero =>
    intro attempt
    show attemptsOf PushOutcome.exhausted ≤ _
    exact le_max_left _ _
  | succ fuel ih =>
    intro attempt
    have hrec : attemptsOf (savePushGo stub (attempt + 1) fuel)
        ≤ max maxRetries (attempt + (fuel + 1) - 1) := by
      refine le_trans (ih (attempt + 1)) ?_
      simp only [maxRetries]
      omega
    cases h : stub attempt with
    | netError =>
      show attemptsOf (savePushGo stub attempt (fuel + 1)) ≤ _
      simp only [savePushGo, h]
      exact hrec
    | status code =>
      show attemptsOf (savePushGo stub attempt (fuel + 1)) ≤ _
      simp only [savePushGo, h]
      split_ifs with h200 h409 hbrk
      · simp only [attemptsOf, maxRetries]
        omega
      · simp only [attemptsOf, maxRetries]
        omega
      · simp only [attemptsOf, maxRetries]
        omega
      · exact hrec

/-- In a loop run whose attempt numbering and fuel add up to the real loop's
budget, every attempt strictly before the final one ended in a retriable
outcome: a network error, a 5xx status, or 429. -/
theorem retried_only_on_retriable (stub : Nat → RemoteAttempt) :
    ∀ (fuel attempt : Nat), attempt + fuel = maxRetries + 1 →
      ∀ j, attempt ≤ j → j < attemptsOf (savePushGo stub attempt fuel) →
        retriableEvent (stub j) = true := by
  intro fuel
  induction fuel with
  | zero =>
    intro attempt hsum j hj1 hj2
    have : attemptsOf (savePushGo stub attempt 0) = maxRetries := rfl
    rw [this] at hj2
    simp only [maxRetries] at hsum hj2
    omega
  | succ fuel ih =>
    intro attempt hsum j hj1 hj2
    cases h : stub attempt with
    | netError =>
      simp only [savePushGo, h] at hj2
      by_cases hja : j = attempt
      · rw [hja, h]
        rfl
      · exact ih (attempt + 1) (by omega) j (by omega) hj2
    | status code =>
      simp only [savePushGo, h] at hj2
      split_ifs at hj2 with h200 h409 hbrk
      · simp only [attemptsOf] at hj2
        omega
      · simp only [attemptsOf] at hj2
        omega
      · simp only [attemptsOf] at hj2
        omega
      · by_cases hja : j = attempt
        · rw [hja, h]
          simp only [retriableEvent, Bool.or_eq_true, decide_eq_true_eq, beq_iff_eq]
          simp only [Bool.and_eq_true, decide_eq_true_eq, bne_iff_ne, ne_eq,
            not_and, not_lt, Classical.not_not] at hbrk
          omega
        · exact ih (attempt + 1) (by omega) j (by omega) hj2

/-- C4: the remote push of `save_game_stats` makes at most 5 attempts;
attempts are retried only after a network error or a status that is 5xx or
429; a 200 and a 409 on the first attempt each end the loop at once with
success; the function returns the local id whenever the push runs; the
503-503-503-503-200 stub succeeds on the fifth attempt; the 400 stub aborts
after one attempt with no retry. -/
theorem c4_push_retry_policy :
    (∀ stub, attemptsOf (savePush stub) ≤ 5) ∧
    (∀ stub j, 1 ≤ j → j < attemptsOf (savePush stub) →
      retriableEvent (stub j) = true) ∧
    (∀ stub, stub 1 = .status 200 → savePush stub = .success 1) ∧
    (∀ stub, stub 1 = .status 409 → savePush stub = .success 1) ∧
    (∀ (store : List Row) (nextId : Int) (pn df : String) (t0 t1 : ℚ)
        (mv mt : Int) (cp : Bool) (stub : Nat → RemoteAttempt),
      (save_game_stats store nextId pn df t0 t1 mv mt cp true stub).ret = nextId) ∧
    savePush stub503 = .success 5 ∧
    savePush stub400 = .aborted 1 := by
  refine ⟨?_, ?_, ?_, ?_, fun _ _ _ _ _ _ _ _ _ _ => rfl, by decide, by decide⟩
  · intro stub
    have := attemptsOf_savePushGo_le stub maxRetries 1
    simp only [maxRetries] at this
    exact le_trans this (by omega)
  · intro stub j hj1 hj2
    exact retried_only_on_retriable stub maxRetries 1 rfl j hj1 hj2
  · intro stub h
    show savePushGo stub 1 (4 + 1) = .success 1
    simp [savePushGo, h]
  · intro stub h
    show savePushGo stub 1 (4 + 1) = .success 1
    simp [savePushGo, h]

/-- C4 witness: the policy instantiated on the 503-then-200 stub. -/
theorem c4_push_retry_policy_witness :
    attemptsOf (savePush stub503) ≤ 5 ∧ retriableEvent (stub503 1) = true ∧
    savePush stub400 = .aborted 1 :=
  ⟨c4_push_retry_policy.1 stub503,
   c4_push_retry_policy.2.1 stub503 1 (by decide) (by decide),
   c4_push_retry_policy.2.2.2.2.2.2⟩

/-- C5 counterexample: with the legitimate random draw `r = 9/10`, the delay
slept after the first failed attempt is `7/5` seconds, which is not of the
form `base * 2^(attempt-1) * u` for any `u` in `[0.5, 1.0]`; moreover the
delay slept after the second failed attempt with draw `r = 0` is smaller
than that first delay, so consecutive delays are not strictly increasing. -/
theorem c5_jitter_counterexample :
    ((0 : ℚ) ≤ 9 / 10 ∧ (9 / 10 : ℚ) < 1 ∧ (0 : ℚ) ≤ 0 ∧ (0 : ℚ) < 1) ∧
    (¬ ∃ u : ℚ, 1 / 2 ≤ u ∧ u ≤ 1 ∧
      backoffDelay 1 (9 / 10) = baseDelay * 2 ^ (1 - 1) * u) ∧
    backoffDelay 2 0 < backoffDelay 1 (9 / 10) := by
  refine ⟨by norm_num, ?_, by norm_num [backoffDelay, baseDelay]⟩
  rintro ⟨u, hu1, hu2, hu3⟩
  simp only [backoffDelay, baseDelay] at hu3
  norm_num at hu3
  rw [← hu3] at hu2
  norm_num at hu2

/-- C5 amended: the backoff after failed attempt `k` is
`base * 2^(k-1) * u` with `u = 0.5 + r` for the uniform draw `r` in `[0, 1)`,
so `u` ranges over `[0.5, 1.5)` (not `[0.5, 1.0]`), and the per-attempt HTTP
timeout grows by exactly 5 seconds per attempt; strict growth of consecutive
delays is not guaranteed. -/
theorem c5_backoff_policy (attempt : Nat) (r : ℚ) (h0 : 0 ≤ r) (h1 : r < 1) :
    (∃ u : ℚ, 1 / 2 ≤ u ∧ u < 3 / 2 ∧
      backoffDelay attempt r = baseDelay * 2 ^ (attempt - 1) * u) ∧
    (∀ a : Nat, requestTimeout (a + 1) = requestTimeout a + 5) := by
  refine ⟨⟨1 / 2 + r, by linarith, by linarith, rfl⟩, fun a => ?_⟩
  simp only [requestTimeout]
  ring

/-- C5 witness: the amended policy at attempt 3 with draw 1/4. -/
theorem c5_backoff_policy_witness :
    (∃ u : ℚ, 1 / 2 ≤ u ∧ u < 3 / 2 ∧
      backoffDelay 3 (1 / 4) = baseDelay * 2 ^ (3 - 1) * u) ∧
    (∀ a : Nat, requestTimeout (a + 1) = requestTimeout a + 5) :=
  c5_backoff_policy 3 (1 / 4) (by norm_num) (by norm_num)

/-- C7: the cache replace is atomic — an exception raised after any number
of executed statements rolls the transaction back, so the call leaves the
whole store, and in particular its server-sourced rows, exactly as they were
before the call. -/
theorem c7_cache_replace_atomic (store : List Row) (now : ℚ) (difficulty : Option String)
    (data : List ServerItem) (k : Nat) :
    update_local_cache_from_server store now difficulty data (some k) = store ∧
    serverRows (update_local_cache_from_server store now difficulty data (some k))
      = serverRows store := by
  unfold update_local_cache_from_server
  split <;> exact ⟨rfl, rfl⟩

/-- C9: the client requests player stats on path `/api/player/{name}` while
the bundled server serves them on `/api/stats/player/{name}`; at the player
name Ana the two paths differ, so the client URL never matches the server
route. -/
theorem c9_player_endpoint_mismatch :
    clientPlayerStatsPath "Ana" = "/api/player/Ana" ∧
    serverPlayerStatsPath "Ana" = "/api/stats/player/Ana" ∧
    clientPlayerStatsPath "Ana" ≠ serverPlayerStatsPath "Ana" :=
  ⟨rfl, rfl, by decide⟩

/-- Membership in an insertion step of the sort. -/
theorem mem_insertSorted {α : Type} (le : α → α → Bool) (a x : α) :
    ∀ l : List α, x ∈ insertSorted le a l ↔ x = a ∨ x ∈ l := by
  intro l
  induction l with
  | nil => simp [insertSorted]
  | cons b rest ih =>
    simp only [insertSorted]
    split
    · simp [List.mem_cons]
    · simp only [List.mem_cons, ih]
      tauto

/-- Sorting preserves membership. -/
theorem mem_orderBy {α : Type} (le : α → α → Bool) (x : α) :
    ∀ l : List α, x ∈ orderBy le l ↔ x ∈ l := by
  intro l
  induction l with
  | nil => simp [orderBy]
  | cons a rest ih => simp [orderBy, mem_insertSorted, ih]

/-- Every row returned by the local-only leaderboard query comes from the
store, is completed, and carries source local. -/
theorem mem_localLeaderboardRows (store : List Row) (difficulty : Option String)
    (limit : Nat) (r : Row) (hr : r ∈ localLeaderboardRows store difficulty limit) :
    r ∈ store ∧ r.completed = true ∧ r.source = "local" := by
  unfold localLeaderboardRows at hr
  have h1 : r ∈ orderBy lbLE (store.filter (lbFilter difficulty)) :=
    List.mem_of_mem_take hr
  have h2 : r ∈ store.filter (lbFilter difficulty) := (mem_orderBy _ _ _).mp h1
  have h3 := List.mem_filter.mp h2
  have h4 := h3.2
  simp only [lbFilter, Bool.and_eq_true, beq_iff_eq] at h4
  exact ⟨h3.1, h4.1.1, h4.2⟩

/-- C10: every leaderboard read path filters on `completed = 1` — the
local-only query shared by `get_leaderboard` and the fallback branches of
`get_remote_leaderboard`, and both branches of the server leaderboard
endpoint — so no abandoned session ever appears in a leaderboard result. -/
theorem c10_leaderboard_completed_only :
    (∀ (store : List Row) (difficulty : Option String) (limit : Nat),
      ∀ r ∈ localLeaderboardRows store difficulty limit, r.completed = true) ∧
    (∀ (table : List SrvRow) (difficulty : String) (limit : Nat),
      ∀ r ∈ serverLeaderboardRows table difficulty limit, r.completed = true) := by
  constructor
  · intro store difficulty limit r hr
    exact (mem_localLeaderboardRows store difficulty limit r hr).2.1
  · intro table difficulty limit r hr
    unfold serverLeaderboardRows at hr
    have h1 := List.mem_of_mem_take hr
    rw [mem_orderBy] at h1
    split at h1
    · exact (List.mem_filter.mp h1).2
    · have h2 := (List.mem_filter.mp h1).2
      simp only [Bool.and_eq_true, beq_iff_eq] at h2
      exact h2.2

/-- C10 witness: the property at a one-row store and a one-row server table. -/
theorem c10_leaderboard_completed_only_witness :
    sampleRow.completed = true ∧ sampleSrvRow.completed = true :=
  ⟨c10_leaderboard_completed_only.1 [sampleRow] none 10 sampleRow (by decide),
   c10_leaderboard_completed_only.2 [sampleSrvRow] "Easy" 10 sampleSrvRow (by decide)⟩

/-- C6 counterexample: with the engine already offline (`online = false`) and
the probe failing, `get_leaderboard` takes its plain local branch: the
returned row carries no `cached` key at all and `using_cached_data` stays
false, contradicting the claim that every offline read tags its rows
`cached = true` and sets the flag. -/
theorem c6_offline_untagged_counterexample :
    (get_leaderboard ⟨false, false⟩ [sampleRow] false none 10 .exn).2
        = [rowToLBStat sampleRow] ∧
    (rowToLBStat sampleRow).cached = none ∧
    (rowToLBStat sampleRow).source = some "local" ∧
    (get_leaderboard ⟨false, false⟩ [sampleRow] false none 10 .exn).1.usingCachedData
        = false := by
  refine ⟨by decide, rfl, rfl, by decide⟩

/-- C6 amended: whenever the probe reports offline, `get_leaderboard` returns
only rows with source local; but the rows are tagged `cached = true` with the
warning string and `using_cached_data` is set only when the engine entered the
call with `online = true` (so the fallback runs inside
`get_remote_leaderboard`); when `online` was already false the rows come back
untagged and the flag is left unchanged. -/
theorem c6_offline_leaderboard (st : EngineState) (store : List Row)
    (difficulty : Option String) (limit : Nat) (resp : LBResp) :
    (∀ s ∈ (get_leaderboard st store false difficulty limit resp).2,
      s.source = some "local") ∧
    (st.online = true →
      (get_leaderboard st store false difficulty limit resp).1.usingCachedData = true ∧
      ∀ s ∈ (get_leaderboard st store false difficulty limit resp).2,
        s.cached = some true ∧
        s.warning = some "LOCAL DATA ONLY - Not synced with server") := by
  by_cases h : st.online
  · have hres : get_leaderboard st store false difficulty limit resp
        = ({ st with online := false, usingCachedData := true },
           tagCached "LOCAL DATA ONLY - Not synced with server"
             ((localLeaderboardRows store difficulty limit).map rowToLBStat)) := by
      simp [get_leaderboard, h, get_remote_leaderboard]
    rw [hres]
    constructor
    · intro s hs
      simp only [tagCached, List.mem_map] at hs
      obtain ⟨t, ⟨r, hr, hrt⟩, hts⟩ := hs
      rw [← hts, ← hrt]
      show some r.source = some "local"
      rw [(mem_localLeaderboardRows store difficulty limit r hr).2.2]
    · intro _
      refine ⟨rfl, ?_⟩
      intro s hs
      simp only [tagCached, List.mem_map] at hs
      obtain ⟨t, -, hts⟩ := hs
      rw [← hts]
      exact ⟨rfl, rfl⟩
  · have h' : st.online = false := by simpa using h
    have hres : get_leaderboard st store false difficulty limit resp
        = ({ st with online := false },
           (localLeaderboardRows store difficulty limit).map rowToLBStat) := by
      simp [get_leaderboard, h']
    rw [hres]
    refine ⟨?_, fun hc => absurd hc (by simp [h'])⟩
    intro s hs
    obtain ⟨r, hr, hrs⟩ := List.mem_map.mp hs
    rw [← hrs]
    show some r.source = some "local"
    rw [(mem_localLeaderboardRows store difficulty limit r hr).2.2]

/-- C6 witness: an engine with a stale `online = true` flag and a failing
probe falls back with the flag set and the sample row tagged. -/
theorem c6_offline_leaderboard_witness :
    (get_leaderboard ⟨true, false⟩ [sampleRow] false none 10 .exn).1.usingCachedData
      = true :=
  ((c6_offline_leaderboard ⟨true, false⟩ [sampleRow] none 10 .exn).2 rfl).1

/-- The dedup keys of the local player stats are the row ids. -/
theorem keyDistinct_localPlayerStats (store : List Row) (pn : String) (mc : Bool)
    (hIds : (store.map Row.id).Nodup) :
    KeyDistinct ((localPlayerRows store pn).map (rowToPlayerStat mc)) := by
  unfold KeyDistinct
  rw [List.map_map]
  have hfun : (dedupKey ∘ rowToPlayerStat mc) = DedupKey.fromId ∘ Row.id := rfl
  rw [hfun, ← List.map_map]
  have hsub : ((localPlayerRows store pn).map Row.id).Nodup :=
    hIds.sublist (List.Sublist.map Row.id (List.filter_sublist store))
  exact hsub.map fun i j hij => by simpa using hij

/-- C8 counterexample: two identical-content unsynced local games (store
rows 1 and 2, no serverID) are both returned in `local_stats` by the online
200 path of `get_player_remote_stats`; the two records share one spec
identity key (the composite, since neither has a serverID), so `local_stats`
holds two records per identity key and was not dedup-merged. -/
theorem c8_local_stats_counterexample :
    (get_player_remote_stats ⟨true, false⟩ [sampleRow, sampleRow2] "Ana"
        (.ok [])).2.local_stats
      = [rowToPlayerStat false sampleRow, rowToPlayerStat false sampleRow2] ∧
    rowToPlayerStat false sampleRow ≠ rowToPlayerStat false sampleRow2 ∧
    sampleRow.server_id = none ∧ sampleRow2.server_id = none ∧
    specIdentityKey sampleRow = specIdentityKey sampleRow2 ∧
    specCompositeKey (rowToPlayerStat false sampleRow)
      = specCompositeKey (rowToPlayerStat false sampleRow2) ∧
    ¬ (((get_player_remote_stats ⟨true, false⟩ [sampleRow, sampleRow2] "Ana"
        (.ok [])).2.local_stats).map specCompositeKey).Nodup := by
  have hloc : (get_player_remote_stats ⟨true, false⟩ [sampleRow, sampleRow2] "Ana"
        (.ok [])).2.local_stats
      = [rowToPlayerStat false sampleRow, rowToPlayerStat false sampleRow2] := by decide
  refine ⟨hloc, by decide, rfl, rfl, rfl, rfl, ?_⟩
  rw [hloc]
  intro hnd
  simp only [List.map_cons, List.map_nil] at hnd
  exact (List.nodup_cons.mp hnd).1 (List.mem_singleton.mpr rfl)

/-- C8 amended: in the online path with a 200 response, the primary `stats`
list is exactly the dedup-merge of the tagged server stats and so holds at
most one record per dedup key; the `local_stats` list is returned raw — it is
the unmerged local query result, not passed through dedup-merge — and its
records are distinct only per local rowid (making it a fixed point of the
code's rowid-keyed dedup), while several of them may share one spec composite
identity key. -/
theorem c8_player_stats_dedup_amended (st : EngineState) (store : List Row) (pn : String)
    (srv : List Stat) (hOnline : st.online = true)
    (hIds : (store.map Row.id).Nodup) :
    (get_player_remote_stats st store pn (.ok srv)).2.stats
      = deduplicate_stats (srv.map tagServer) ∧
    KeyDistinct ((get_player_remote_stats st store pn (.ok srv)).2.stats) ∧
    (get_player_remote_stats st store pn (.ok srv)).2.local_stats
      = (localPlayerRows store pn).map (rowToPlayerStat false) ∧
    deduplicate_stats ((get_player_remote_stats st store pn (.ok srv)).2.local_stats)
      = (get_player_remote_stats st store pn (.ok srv)).2.local_stats := by
  have hres : (get_player_remote_stats st store pn (.ok srv)).2
      = { player := pn,
          stats := deduplicate_stats (srv.map tagServer),
          local_stats := (localPlayerRows store pn).map (rowToPlayerStat false),
          has_local_data :=
            ((localPlayerRows store pn).map (rowToPlayerStat false)).length > 0,
          using_cached := false, error := none } := by
    simp [get_player_remote_stats, hOnline]
  rw [hres]
  have hKD := keyDistinct_localPlayerStats store pn false hIds
  exact ⟨rfl, keyDistinct_deduplicate_stats _, rfl,
    deduplicate_stats_of_keyDistinct _ hKD⟩

/-- C8 witness: the amended statement at the two-row store holding the
identical-content local games, with one server stat. -/
theorem c8_player_stats_dedup_amended_witness :
    (get_player_remote_stats ⟨true, false⟩ [sampleRow, sampleRow2] "Ana"
        (.ok [sampleServerStat])).2.stats
      = deduplicate_stats ([sampleServerStat].map tagServer) :=
  (c8_player_stats_dedup_amended ⟨true, false⟩ [sampleRow, sampleRow2] "Ana"
    [sampleServerStat] rfl (by decide)).1

end Memorick
